import Mathlib

/-
Verification of the `capturer` package (capturer/__init__.py): a shallow
embedding of its data model and operations, followed by theorems that settle
the specification claims.

Modelling conventions:
- Bytes are natural numbers; byte strings are `List Nat`.
- The process-wide file-descriptor table is `FdTable`: an association list
  mapping a descriptor number to the identity of the open file description it
  refers to, together with an allocation counter for `os.dup` / `pty.openpty`.
  A descriptor absent from the list denotes an inherited descriptor referring
  to its own (distinct) description.
- Python exceptions are `Except CapturerError`; every TypeError raised by the
  source is represented by the constructor naming its condition.
- Side effects performed by child processes or on the OS (writes, signals,
  closes, dup2 calls) are reified as effect traces so that ordering claims can
  be stated.
- The blocking drain loop (`capture_loop`) is modelled as a function of the
  finite sequence of chunks returned by `os.read` before the graceful-shutdown
  signal arrives; the signal's `ShutdownRequested` handler corresponds to the
  base case of the recursion.
-/

set_option autoImplicit false

namespace Capturer

/-- Byte value of the line-feed terminator that `OutputBuffer` splits on. -/
def NL : Nat := 10

/-- Number of the file descriptor of the standard output stream. -/
def STDOUT_FD : Nat := 1

/-- Number of the file descriptor of the standard error stream. -/
def STDERR_FD : Nat := 2

/-- Association-list lookup keyed by descriptor or token number. -/
def lookupAssoc {α : Type} : List (Nat × α) → Nat → Option α
  | [], _ => none
  | (k, v) :: rest, key => if k = key then some v else lookupAssoc rest key

/-- Association-list update-or-append: models assignment to a Python dict key
(an existing key keeps its position, a new key is appended). -/
def setAssoc {α : Type} : List (Nat × α) → Nat → α → List (Nat × α)
  | [], key, v => [(key, v)]
  | (k, w) :: rest, key, v =>
    if k = key then (key, v) :: rest else (k, w) :: setAssoc rest key v

/-- Association-list removal: models `dict.pop(key)`. -/
def removeAssoc {α : Type} : List (Nat × α) → Nat → List (Nat × α)
  | [], _ => []
  | (k, w) :: rest, key =>
    if k = key then rest else (k, w) :: removeAssoc rest key

/-- The process-wide file-descriptor table: `desc` maps a descriptor number to
the open file description it refers to, `next` is the lowest never-used
descriptor number (used to allocate fresh descriptors for `os.dup`,
`pty.openpty` and `tempfile.mkstemp`). -/
structure FdTable where
  desc : List (Nat × Nat)
  next : Nat
deriving Repr, DecidableEq

/-- The open file description a descriptor currently refers to; a descriptor
that was never remapped refers to its own inherited description. -/
def FdTable.ofd (t : FdTable) (fd : Nat) : Nat :=
  match lookupAssoc t.desc fd with
  | some o => o
  | none => fd

/-- `os.dup2(src, dst)`: make `dst` refer to the description `src` refers to. -/
def FdTable.dup2 (t : FdTable) (src dst : Nat) : FdTable :=
  { t with desc := setAssoc t.desc dst (t.ofd src) }

/-- `os.dup(fd)`: allocate a fresh descriptor referring to the description
`fd` refers to, returning the new descriptor number. -/
def FdTable.dup (t : FdTable) (fd : Nat) : Nat × FdTable :=
  (t.next, { desc := setAssoc t.desc t.next (t.ofd fd), next := t.next + 1 })

/-- `pty.openpty()`: allocate a fresh master/slave descriptor pair, each
referring to its own fresh description. -/
def FdTable.openpty (t : FdTable) : Nat × Nat × FdTable :=
  (t.next, t.next + 1, { t with next := t.next + 2 })

/-- The error conditions raised by the source (all of them `TypeError` or
`Exception` in Python); each constructor names the condition that raises it. -/
inductive CapturerError
  /-- `Stream.redirect`: "File descriptor %s is already being redirected!" -/
  | alreadyRedirected (fd : Nat)
  /-- `CaptureOutput.start_capture`: "Output capturing is already enabled!" -/
  | alreadyCapturing
  /-- `CaptureOutput.start_capture`: "Programming error: Unrecognized stream type!" -/
  | unrecognizedStreamType
  /-- `enable_old_api.method_proxy`: "The old calling interface is only
  supported when merged=True and start_capture() has been called!" -/
  | oldApiUnavailable
  /-- Operating on a descriptor slot that has been closed (set to `None`). -/
  | badFileDescriptor
deriving Repr, DecidableEq

/-- `Stream`: redirect/restore logic for one file descriptor
(capturer/__init__.py, class Stream). -/
structure Stream where
  fd : Nat
  original_fd : Nat
  is_redirected : Bool
deriving Repr, DecidableEq

/-- `Stream.__init__(fd)`: remember `fd` and duplicate it into `original_fd`. -/
def Stream.init (t : FdTable) (fd : Nat) : Stream × FdTable :=
  let r := t.dup fd
  ({ fd := fd, original_fd := r.1, is_redirected := false }, r.2)

/-- `Stream.redirect(target_fd)`: raise when already redirected, otherwise
`os.dup2(target_fd, self.fd)` and set the flag. -/
def Stream.redirect (s : Stream) (t : FdTable) (target_fd : Nat) :
    Except CapturerError (Stream × FdTable) :=
  if s.is_redirected then .error (.alreadyRedirected s.fd)
  else .ok ({ s with is_redirected := true }, t.dup2 target_fd s.fd)

/-- `Stream.restore()`: when redirected, `os.dup2(self.original_fd, self.fd)`
and clear the flag; otherwise do nothing. The third component records the
`dup2(src, dst)` call performed, if any. -/
def Stream.restore (s : Stream) (t : FdTable) :
    Stream × FdTable × Option (Nat × Nat) :=
  if s.is_redirected then
    ({ s with is_redirected := false }, t.dup2 s.original_fd s.fd,
      some (s.original_fd, s.fd))
  else (s, t, none)

/-- `OutputBuffer`: line-boundary-respecting write buffer used by the merge
loop (capturer/__init__.py, class OutputBuffer). -/
structure OutputBuffer where
  fd : Nat
  buffer : List Nat
deriving Repr, DecidableEq

/-- `bytes.rpartition(b'\n')` restricted to what `OutputBuffer.add` uses:
split a byte string at its LAST line feed, returning the part before it and
the part after it, or `none` when it contains no line feed. -/
def rpartitionNL : List Nat → Option (List Nat × List Nat)
  | [] => none
  | a :: rest =>
    match rpartitionNL rest with
    | some (before, after) => some (a :: before, after)
    | none => if a = NL then some ([], rest) else none

/-- `OutputBuffer.add(output)`: append `output` to the buffer; if the buffer
now contains a line feed, split at the last one, keep the tail and emit one
`os.write(fd, before + b'\n')`. Returns the new buffer and the list of
`(fd, bytes)` writes performed. -/
def OutputBuffer.add (b : OutputBuffer) (output : List Nat) :
    OutputBuffer × List (Nat × List Nat) :=
  let combined := b.buffer ++ output
  match rpartitionNL combined with
  | some (before, after) => ({ b with buffer := after }, [(b.fd, before ++ [NL])])
  | none => ({ b with buffer := combined }, [])

/-- `OutputBuffer.flush()`: `os.write(fd, buffer)` (the buffer itself is not
cleared by the source). Returns the write performed. -/
def OutputBuffer.flush (b : OutputBuffer) : Nat × List Nat := (b.fd, b.buffer)

/-- Concatenation of the payloads of a list of `(fd, bytes)` writes. -/
def joinWrites (ws : List (Nat × List Nat)) : List Nat := (ws.map Prod.snd).flatten

/-- Observable actions of the drain loop `PseudoTerminal.capture_loop`. -/
inductive DrainEffect
  /-- `os.write(self.output_fd, output)`: append to the backing store. -/
  | storeWrite (bytes : List Nat)
  /-- `os.write(self.relay_fd, output)`: relay to the real terminal. -/
  | relayWrite (fd : Nat) (bytes : List Nat)
  /-- `self.output_queue.put((self.queue_token, output))`. -/
  | enqueue (token : Nat) (bytes : List Nat)
  /-- `time.sleep(0)` on an empty read. -/
  | sleepYield
deriving Repr, DecidableEq

/-- Observable actions of `PseudoTerminal.finish_capture` and its callees. -/
inductive PtyEffect
  /-- `time.sleep(self.termination_delay)`. -/
  | sleep
  /-- `os.kill(pid, GRACEFUL_SHUTDOWN_SIGNAL)` from `stop_children`. -/
  | signalChild (pid : Nat)
  /-- `child_process.join()` from `stop_children`. -/
  | joinChild (pid : Nat)
  /-- `os.close(fd)` from `close_pseudo_terminal`. -/
  | closeFd (fd : Nat)
  /-- `os.dup2(src, dst)` from `Stream.restore` during `restore_streams`. -/
  | restoreDup (src dst : Nat)
deriving Repr, DecidableEq

/-- `PseudoTerminal` (capturer/__init__.py, class PseudoTerminal): one pty
pair plus the anonymous backing store. `output_store` is the byte content of
the unlinked temporary file, `handle_pos` the read position of
`output_handle`, `processes` the pids tracked by the `MultiProcessHelper`
superclass. `has_queue`/`queue_token` model `output_queue`/`queue_token`
(`has_queue = false` models `output_queue is None`). -/
structure PseudoTerminal where
  relay_fd : Option Nat
  has_queue : Bool
  queue_token : Nat
  master_fd : Option Nat
  slave_fd : Option Nat
  output_store : List Nat
  handle_pos : Nat
  streams : List Stream
  processes : List Nat
deriving Repr, DecidableEq

/-- `PseudoTerminal.__init__`: allocate the pty pair and the backing store
(an `mkstemp` write descriptor and an independent read handle over the same
unlinked file, here `output_store`/`handle_pos`). -/
def PseudoTerminal.init (relay_fd : Option Nat) (has_queue : Bool)
    (queue_token : Nat) (t : FdTable) : PseudoTerminal × FdTable :=
  let r := t.openpty
  -- mkstemp + open allocate two more descriptors for the backing store.
  let t2 := { r.2.2 with next := r.2.2.next + 2 }
  ({ relay_fd := relay_fd, has_queue := has_queue, queue_token := queue_token,
     master_fd := some r.1, slave_fd := some r.2.1, output_store := [],
     handle_pos := 0, streams := [], processes := [] }, t2)

/-- `PseudoTerminal.attach(stream)`: redirect the stream onto the slave end
and track it. -/
def PseudoTerminal.attach (p : PseudoTerminal) (st : Stream) (t : FdTable) :
    Except CapturerError (PseudoTerminal × FdTable) :=
  match p.slave_fd with
  | none => .error .badFileDescriptor
  | some slave =>
    match st.redirect t slave with
    | .error e => .error e
    | .ok (st2, t2) => .ok ({ p with streams := p.streams ++ [st2] }, t2)

/-- `MultiProcessHelper.stop_children()`: pop each tracked child (so in
reverse order of registration), signal it and join it. The `is_alive` check
is modelled as always true while a pid is tracked. -/
def stop_children_effects (processes : List Nat) : List PtyEffect :=
  processes.reverse.flatMap (fun pid => [PtyEffect.signalChild pid, PtyEffect.joinChild pid])

/-- `PseudoTerminal.close_pseudo_terminal()`: close master then slave, each
only when not already `None`, setting the slot to `None`. -/
def PseudoTerminal.close_pseudo_terminal (p : PseudoTerminal) :
    PseudoTerminal × List PtyEffect :=
  let mEffs := match p.master_fd with | some fd => [PtyEffect.closeFd fd] | none => []
  let sEffs := match p.slave_fd with | some fd => [PtyEffect.closeFd fd] | none => []
  ({ p with master_fd := none, slave_fd := none }, mEffs ++ sEffs)

/-- `PseudoTerminal.restore_streams()`: restore every attached stream in
order, threading the descriptor table and collecting the `dup2` calls. -/
def restore_streams_aux : List Stream → FdTable → List Stream × FdTable × List PtyEffect
  | [], t => ([], t, [])
  | s :: rest, t =>
    let r := s.restore t
    let k := restore_streams_aux rest r.2.1
    (r.1 :: k.1, k.2.1,
      (match r.2.2 with
       | some e => [PtyEffect.restoreDup e.1 e.2]
       | none => []) ++ k.2.2)

/-- `PseudoTerminal.finish_capture()`: sleep `termination_delay`, stop the
child processes, close the pty descriptors, restore the attached streams. -/
def PseudoTerminal.finish_capture (p : PseudoTerminal) (t : FdTable) :
    PseudoTerminal × FdTable × List PtyEffect :=
  let eStop := stop_children_effects p.processes
  let p1 := { p with processes := [] }
  let c := p1.close_pseudo_terminal
  let r := restore_streams_aux c.1.streams t
  ({ c.1 with streams := r.1 }, r.2.1,
    [PtyEffect.sleep] ++ eStop ++ c.2 ++ r.2.2)

/-- `PseudoTerminal.get_handle(partial)`: when not a partial read, first call
`finish_capture()`; then seek the backing-store read handle to offset zero
and return it. The handle is the pair (`output_store`, `handle_pos`) inside
the returned state. This method has no raising path. -/
def PseudoTerminal.get_handle (p : PseudoTerminal) (t : FdTable)
    (partialRead : Bool) :
    Except CapturerError (PseudoTerminal × FdTable × List PtyEffect) :=
  let r := if !partialRead then p.finish_capture t else (p, t, [])
  .ok ({ r.1 with handle_pos := 0 }, r.2.1, r.2.2)

/-- `PseudoTerminal.get_bytes(partial)`: `get_handle(partial).read()` — read
from the (just reset) handle position to the end of the backing store,
leaving the handle at end-of-file. -/
def PseudoTerminal.get_bytes (p : PseudoTerminal) (t : FdTable)
    (partialRead : Bool) :
    Except CapturerError (PseudoTerminal × FdTable × List PtyEffect × List Nat) :=
  match p.get_handle t partialRead with
  | .error e => .error e
  | .ok (q, u, effs) =>
    let bytes := q.output_store.drop q.handle_pos
    .ok ({ q with handle_pos := q.output_store.length }, u, effs, bytes)

/-- `PseudoTerminal.capture_loop`: drain the pty master until the graceful
shutdown signal arrives. The argument lists the successive results of
`os.read(master_fd, chunk_size)` before the signal; each non-empty chunk is
written to the backing store, relayed when `relay_fd` is set, and enqueued
when an output queue is configured; an empty chunk yields the scheduler.
The `ShutdownRequested` handler (the base case) enqueues the empty sentinel
when an output queue is configured. -/
def PseudoTerminal.capture_loop (p : PseudoTerminal) :
    List (List Nat) → List DrainEffect
  | [] => if p.has_queue then [DrainEffect.enqueue p.queue_token []] else []
  | output :: rest =>
    (if output ≠ [] then
      [DrainEffect.storeWrite output] ++
      (match p.relay_fd with
       | some fd => [DrainEffect.relayWrite fd output]
       | none => []) ++
      (if p.has_queue then [DrainEffect.enqueue p.queue_token output] else [])
    else [DrainEffect.sleepYield]) ++ p.capture_loop rest

/-- Outcome of running `CaptureOutput.merge_loop` on a finite message list:
either the `while buffers` condition became false (`terminated`), the
messages ran out with buffers still active (the real loop would block in
`queue.get`), or a message carried a token with no active buffer (the real
loop would raise `KeyError`). -/
inductive MergeOutcome
  | terminated
  | blocked
  | keyError (token : Nat)
deriving Repr, DecidableEq

/-- Result of a `merge_loop` run: the `os.write` calls performed, the final
active buffer set, and how the run ended. -/
structure MergeRun where
  writes : List (Nat × List Nat)
  buffers : List (Nat × OutputBuffer)
  outcome : MergeOutcome
deriving Repr, DecidableEq

/-- `CaptureOutput.merge_loop`: consume `(token, payload)` messages from the
shared queue; a non-empty payload is added to that token's buffer, an empty
payload flushes the buffer and drops the token; loop while the active buffer
set is non-empty. -/
def merge_loop : List (Nat × List Nat) → List (Nat × OutputBuffer) → MergeRun
  | _, [] => { writes := [], buffers := [], outcome := .terminated }
  | [], b :: bs => { writes := [], buffers := b :: bs, outcome := .blocked }
  | (tok, output) :: rest, b :: bs =>
    match lookupAssoc (b :: bs) tok with
    | none => { writes := [], buffers := b :: bs, outcome := .keyError tok }
    | some buf =>
      if output ≠ [] then
        let a := buf.add output
        let k := merge_loop rest (setAssoc (b :: bs) tok a.1)
        { writes := a.2 ++ k.writes, buffers := k.buffers, outcome := k.outcome }
      else
        let k := merge_loop rest (removeAssoc (b :: bs) tok)
        { writes := buf.flush :: k.writes, buffers := k.buffers, outcome := k.outcome }

/-- Events observable during `CaptureOutput.start_capture`, in program
order. -/
inductive StartEv
  /-- `allocate_pty` created the pseudo terminal at this index. -/
  | allocPty (idx : Nat)
  /-- `Stream.redirect` was performed on this stream's descriptor. -/
  | redirectFd (fd : Nat)
  /-- `start_child(pseudo_terminal.capture_loop)` for the pty at this index. -/
  | startDrain (idx : Nat)
  /-- `start_child(self.merge_loop)`. -/
  | startMerge
deriving Repr, DecidableEq

/-- Whether a start event is the start of a drain child process. -/
def StartEv.isDrain : StartEv → Bool
  | .startDrain _ => true
  | _ => false

/-- Whether a start event is a stream redirection. -/
def StartEv.isRedirect : StartEv → Bool
  | .redirectFd _ => true
  | _ => false

/-- Whether a start event starts any child process (drain or merge). -/
def StartEv.isChildStart : StartEv → Bool
  | .startDrain _ => true
  | .startMerge => true
  | _ => false

/-- `CaptureOutput` (capturer/__init__.py, class CaptureOutput): the session
orchestrator. `streams` is the `(expected_fd, Stream)` list built by
`initialize_stream`; `stderr_original_fd` is `self.stderr_stream.original_fd`
(the merged-mode relay target); `has_output_attr` models
`hasattr(self, 'output')` (the attribute set by the merged branch of
`start_capture`, tested by the old-API `method_proxy`); `processes` are the
session's own supervised children (the merge process). -/
structure CaptureOutput where
  merged : Bool
  streams : List (Nat × Stream)
  pseudo_terminals : List PseudoTerminal
  stderr_original_fd : Nat
  has_output_attr : Bool
  processes : List Nat
deriving Repr, DecidableEq

/-- `CaptureOutput.initialize_stream(file_obj, expected_fd)`: one `Stream` on
the file object's real descriptor, plus a second `Stream` on the expected
descriptor when they differ. Returns the `(expected_fd, Stream)` entries, the
stream object connected to the real descriptor, and the table. -/
def CaptureOutput.initialize_stream (t : FdTable) (real_fd expected_fd : Nat) :
    List (Nat × Stream) × Stream × FdTable :=
  let r := Stream.init t real_fd
  if real_fd = expected_fd then ([(expected_fd, r.1)], r.1, r.2)
  else
    let r2 := Stream.init r.2 expected_fd
    ([(expected_fd, r.1), (expected_fd, r2.1)], r.1, r2.2)

/-- `CaptureOutput.__init__(merged, ...)`: build the stdout and stderr stream
containers. `stdout_real_fd`/`stderr_real_fd` are `sys.stdout.fileno()` and
`sys.stderr.fileno()`. -/
def CaptureOutput.init (merged : Bool) (stdout_real_fd stderr_real_fd : Nat)
    (t : FdTable) : CaptureOutput × FdTable :=
  let ro := CaptureOutput.initialize_stream t stdout_real_fd STDOUT_FD
  let re := CaptureOutput.initialize_stream ro.2.2 stderr_real_fd STDERR_FD
  ({ merged := merged, streams := ro.1 ++ re.1, pseudo_terminals := [],
     stderr_original_fd := re.2.1.original_fd, has_output_attr := false,
     processes := [] }, re.2.2)

/-- `CaptureOutput.is_capturing`: true when any attached stream is currently
redirected. -/
def CaptureOutput.is_capturing (s : CaptureOutput) : Bool :=
  s.streams.any (fun p => p.2.is_redirected)

/-- The merged-mode attachment loop of `start_capture`: redirect every stream
onto the single pty's slave end, in list order. Returns the updated stream
entries, the streams attached to the pty (in attachment order), the table and
the redirect events. -/
def attachAll : List (Nat × Stream) → Nat → FdTable →
    Except CapturerError (List (Nat × Stream) × List Stream × FdTable × List StartEv)
  | [], _, t => .ok ([], [], t, [])
  | (kind, st) :: rest, slave, t =>
    match st.redirect t slave with
    | .error e => .error e
    | .ok (st2, t2) =>
      match attachAll rest slave t2 with
      | .error e => .error e
      | .ok (rest2, att, t3, evs) =>
        .ok ((kind, st2) :: rest2, st2 :: att, t3, .redirectFd st.fd :: evs)

/-- The split-mode attachment loop of `start_capture`: dispatch each stream by
its kind onto the stdout or stderr pty's slave end; an unrecognized kind
raises. Returns the updated entries, the streams attached to each pty, the
table and the redirect events. -/
def attachSplit : List (Nat × Stream) → Nat → Nat → FdTable →
    Except CapturerError
      (List (Nat × Stream) × List Stream × List Stream × FdTable × List StartEv)
  | [], _, _, t => .ok ([], [], [], t, [])
  | (kind, st) :: rest, slave_out, slave_err, t =>
    if kind = STDOUT_FD then
      match st.redirect t slave_out with
      | .error e => .error e
      | .ok (st2, t2) =>
        match attachSplit rest slave_out slave_err t2 with
        | .error e => .error e
        | .ok (rest2, aout, aerr, t3, evs) =>
          .ok ((kind, st2) :: rest2, st2 :: aout, aerr, t3, .redirectFd st.fd :: evs)
    else if kind = STDERR_FD then
      match st.redirect t slave_err with
      | .error e => .error e
      | .ok (st2, t2) =>
        match attachSplit rest slave_out slave_err t2 with
        | .error e => .error e
        | .ok (rest2, aout, aerr, t3, evs) =>
          .ok ((kind, st2) :: rest2, aout, st2 :: aerr, t3, .redirectFd st.fd :: evs)
    else .error .unrecognizedStreamType

/-- `CaptureOutput.start_capture()`: raise `alreadyCapturing` when any stream
is redirected; otherwise, in merged mode allocate one pty relaying to the
original stderr descriptor, attach every stream to it and install the old-API
accessors, or in split mode create the queue, start the merge child, allocate
one pty per role and attach each stream by kind; finally start every pseudo
terminal's drain child. The event list records the program order of pty
allocations, redirections and child starts. -/
def CaptureOutput.start_capture (s : CaptureOutput) (t : FdTable) :
    Except CapturerError (CaptureOutput × FdTable × List StartEv) :=
  if s.is_capturing then .error .alreadyCapturing
  else if s.merged then
    let a := PseudoTerminal.init (some s.stderr_original_fd) false 0 t
    match attachAll s.streams (a.1.slave_fd.getD 0) a.2 with
    | .error e => .error e
    | .ok (streams2, att, t2, revs) =>
      let pt := { a.1 with streams := att, processes := [0] }
      let s2 := { s with
        streams := streams2
        pseudo_terminals := [pt]
        has_output_attr := true }
      .ok (s2, t2, [StartEv.allocPty 0] ++ revs ++ [StartEv.startDrain 0])
  else
    -- self.output_queue = multiprocessing.Queue(); start_child(merge_loop)
    let ao := PseudoTerminal.init none true STDOUT_FD t
    let ae := PseudoTerminal.init none true STDERR_FD ao.2
    match attachSplit s.streams (ao.1.slave_fd.getD 0) (ae.1.slave_fd.getD 0) ae.2 with
    | .error e => .error e
    | .ok (streams2, aout, aerr, t2, revs) =>
      let ptOut := { ao.1 with streams := aout, processes := [1] }
      let ptErr := { ae.1 with streams := aerr, processes := [2] }
      let s2 := { s with
        streams := streams2
        pseudo_terminals := [ptOut, ptErr]
        processes := [0] }
      .ok (s2, t2,
           [StartEv.startMerge, StartEv.allocPty 0, StartEv.allocPty 1] ++ revs
             ++ [StartEv.startDrain 0, StartEv.startDrain 1])

/-- The six read accessors proxied by `enable_old_api`. -/
inductive OldApiName
  | get_handle
  | get_bytes
  | get_lines
  | get_text
  | save_to_handle
  | save_to_path
deriving Repr, DecidableEq

/-- `enable_old_api.method_proxy`: the guard installed on `CaptureOutput` for
every read accessor; it raises unless `self.output` exists (the attribute set
only by the merged branch of `start_capture`), and otherwise delegates to the
real accessor on `self.output` (the delegated call itself is the
`PseudoTerminal` accessor modelled above; the proxy adds no behavior beyond
the guard, so the delegation result is abstracted to `Unit` here). It reads
the session state without modifying it. -/
def CaptureOutput.method_proxy (s : CaptureOutput) (_name : OldApiName) :
    Except CapturerError Unit :=
  if s.has_output_attr then .ok () else .error .oldApiUnavailable

/-! ### Supporting lemmas -/

theorem rpartitionNL_eq_none {l : List Nat} : rpartitionNL l = none ↔ NL ∉ l := by
  induction l with
  | nil => simp [rpartitionNL]
  | cons a rest ih =>
    rw [rpartitionNL]
    cases h : rpartitionNL rest with
    | none =>
      have hrest : NL ∉ rest := ih.mp h
      by_cases ha : a = NL
      · simp [ha, hrest]
      · rw [if_neg ha]
        simp only [List.mem_cons, not_or, true_iff]
        exact ⟨fun hna => ha hna.symm, hrest⟩
    | some p =>
      have hmem : NL ∈ rest := by
        by_contra hn
        rw [ih.mpr hn] at h
        exact Option.noConfusion h
      simp [hmem]

theorem rpartitionNL_eq_some {l before after : List Nat}
    (h : rpartitionNL l = some (before, after)) :
    l = before ++ NL :: after ∧ NL ∉ after := by
  induction l generalizing before after with
  | nil => exact Option.noConfusion h
  | cons x rest ih =>
    rw [rpartitionNL] at h
    cases hr : rpartitionNL rest with
    | some p =>
      obtain ⟨pb, pa⟩ := p
      rw [hr] at h
      rw [Option.some.injEq, Prod.mk.injEq] at h
      obtain ⟨hb, ha⟩ := h
      obtain ⟨h1, h2⟩ := ih hr
      subst hb
      subst ha
      exact ⟨by simp [h1], h2⟩
    | none =>
      rw [hr] at h
      by_cases hx : x = NL
      · subst hx
        rw [if_pos rfl] at h
        rw [Option.some.injEq, Prod.mk.injEq] at h
        obtain ⟨hb, ha⟩ := h
        subst hb
        subst ha
        exact ⟨rfl, rpartitionNL_eq_none.mp hr⟩
      · rw [if_neg hx] at h
        exact Option.noConfusion h

theorem OutputBuffer.add_spec (b : OutputBuffer) (output : List Nat) :
    NL ∉ (b.add output).1.buffer ∧
    joinWrites (b.add output).2 ++ (b.add output).1.buffer = b.buffer ++ output ∧
    (∀ w ∈ (b.add output).2, w.1 = b.fd ∧ w.2.getLast? = some NL) ∧
    (b.add output).1.fd = b.fd := by
  unfold OutputBuffer.add
  cases h : rpartitionNL (b.buffer ++ output) with
  | none =>
    have hnl := rpartitionNL_eq_none.mp h
    simp [h, joinWrites, hnl]
  | some p =>
    obtain ⟨before, after⟩ := p
    obtain ⟨h1, h2⟩ := rpartitionNL_eq_some h
    simp only [h]
    refine ⟨by simpa using h2, ?_, ?_, trivial⟩
    · simp [joinWrites, h1]
    · intro w hw
      simp only [List.mem_singleton] at hw
      subst hw
      simp

theorem lookupAssoc_setAssoc_self {α : Type} (l : List (Nat × α)) (k : Nat) (v : α) :
    lookupAssoc (setAssoc l k v) k = some v := by
  induction l with
  | nil => simp [setAssoc, lookupAssoc]
  | cons p rest ih =>
    obtain ⟨k2, w⟩ := p
    by_cases hk : k2 = k
    · simp [setAssoc, hk, lookupAssoc]
    · simp [setAssoc, hk, lookupAssoc, ih]

theorem FdTable.ofd_dup2_self (t : FdTable) (src dst : Nat) :
    (t.dup2 src dst).ofd dst = t.ofd src := by
  simp [FdTable.dup2, FdTable.ofd, lookupAssoc_setAssoc_self]

theorem restore_streams_aux_unredirected (ss : List Stream) (t : FdTable) :
    ∀ st ∈ (restore_streams_aux ss t).1, st.is_redirected = false := by
  induction ss generalizing t with
  | nil => simp [restore_streams_aux]
  | cons s rest ih =>
    intro st hst
    simp only [restore_streams_aux, List.mem_cons] at hst
    rcases hst with h | h
    · subst h
      by_cases hr : s.is_redirected <;> simp [Stream.restore, hr]
    · exact ih _ st h

theorem restore_streams_aux_id (ss : List Stream) (t : FdTable)
    (h : ∀ st ∈ ss, st.is_redirected = false) :
    restore_streams_aux ss t = (ss, t, []) := by
  induction ss generalizing t with
  | nil => simp [restore_streams_aux]
  | cons s rest ih =>
    have hs : s.is_redirected = false := h s (by simp)
    have hrest : ∀ st ∈ rest, st.is_redirected = false :=
      fun st hst => h st (by simp [hst])
    simp [restore_streams_aux, Stream.restore, hs, ih t hrest]

theorem finish_capture_fst (p : PseudoTerminal) (t : FdTable) :
    (p.finish_capture t).1 =
      { p with processes := [], master_fd := none, slave_fd := none,
               streams := (restore_streams_aux p.streams t).1 } := rfl

theorem finish_capture_table (p : PseudoTerminal) (t : FdTable) :
    (p.finish_capture t).2.1 = (restore_streams_aux p.streams t).2.1 := rfl

theorem finish_capture_noop {q : PseudoTerminal} {u : FdTable}
    (h1 : q.processes = []) (h2 : q.master_fd = none) (h3 : q.slave_fd = none)
    (h4 : ∀ st ∈ q.streams, st.is_redirected = false) :
    q.finish_capture u = (q, u, [PtyEffect.sleep]) := by
  obtain ⟨rfd, hq, qt, m, sl, store, pos, strs, procs⟩ := q
  simp only at h1 h2 h3 h4
  subst h1
  subst h2
  subst h3
  simp [PseudoTerminal.finish_capture, PseudoTerminal.close_pseudo_terminal,
    stop_children_effects, restore_streams_aux_id strs u h4]

/-! ### Claim theorems -/

/-- Claim C5: after every call to `OutputBuffer.add`, the pending byte
sequence contains no line terminator (at most one trailing partial line is
retained), every complete line present after the append has been written to
the target descriptor immediately and in arrival order (the flushed writes
followed by the retained pending bytes reassemble exactly the old pending
bytes followed by the added output, each write goes to the buffer's target
descriptor, and each write ends with the terminator). -/
theorem C5_output_buffer_invariant (b : OutputBuffer) (output : List Nat) :
    NL ∉ (b.add output).1.buffer ∧
    joinWrites (b.add output).2 ++ (b.add output).1.buffer = b.buffer ++ output ∧
    (∀ w ∈ (b.add output).2, w.1 = b.fd ∧ w.2.getLast? = some NL) :=
  ⟨(OutputBuffer.add_spec b output).1, (OutputBuffer.add_spec b output).2.1,
    (OutputBuffer.add_spec b output).2.2.1⟩

/-- Claim C5 witness: the invariant evaluated on a concrete buffer and
chunk. -/
theorem C5_witness :
    NL ∉ ((OutputBuffer.mk 5 [65]).add [66, 10, 67]).1.buffer ∧
    joinWrites ((OutputBuffer.mk 5 [65]).add [66, 10, 67]).2 ++
        ((OutputBuffer.mk 5 [65]).add [66, 10, 67]).1.buffer = [65] ++ [66, 10, 67] ∧
    (∀ w ∈ ((OutputBuffer.mk 5 [65]).add [66, 10, 67]).2,
      w.1 = 5 ∧ w.2.getLast? = some NL) :=
  C5_output_buffer_invariant (OutputBuffer.mk 5 [65]) [66, 10, 67]

/-- Claim C2: the drain loop turns each chunk read from the pty master into,
in order, a backing-store append, a verbatim relay write when a relay
descriptor is configured, and a `(token, bytes)` enqueue when a merge queue
is configured (an empty read only yields the scheduler); and after the stop
signal terminates the loop, a final `(token, empty)` sentinel is enqueued if
and only if a merge queue is configured. -/
theorem C2_capture_loop (p : PseudoTerminal) (chunks : List (List Nat)) :
    p.capture_loop chunks =
      (chunks.flatMap (fun output =>
        if output = [] then [DrainEffect.sleepYield]
        else
          [DrainEffect.storeWrite output] ++
          (match p.relay_fd with
           | some fd => [DrainEffect.relayWrite fd output]
           | none => []) ++
          (if p.has_queue then [DrainEffect.enqueue p.queue_token output] else []))) ++
      (if p.has_queue then [DrainEffect.enqueue p.queue_token []] else []) ∧
    ((DrainEffect.enqueue p.queue_token [] ∈ p.capture_loop chunks) ↔ p.has_queue = true) := by
  constructor
  · induction chunks with
    | nil => simp [PseudoTerminal.capture_loop]
    | cons output rest ih =>
      by_cases h : output = []
      · simp [PseudoTerminal.capture_loop, h, ih]
      · simp [PseudoTerminal.capture_loop, h, ih]
  · induction chunks with
    | nil =>
      cases hq : p.has_queue <;> simp [PseudoTerminal.capture_loop, hq]
    | cons output rest ih =>
      by_cases h : output = []
      · simpa [PseudoTerminal.capture_loop, h] using ih
      · cases hr : p.relay_fd <;>
          cases hq : p.has_queue <;>
          simp_all [PseudoTerminal.capture_loop, h, hq, hr]

/-- Claim C6: `Stream.redirect(target_fd)` duplicates `target_fd` onto the
stream's descriptor (afterwards `fd` refers to the open file description
`target_fd` referred to) and sets `is_redirected`; a second redirect without
an intervening restore fails with the already-redirected error (returning no
new state, so the descriptor table and the flag are untouched); `restore`
duplicates `original_fd` back onto `fd` when redirected and is idempotent —
on a non-redirected stream it returns the state unchanged and performs no
`dup2`, so a second restore after a first one is a no-op. -/
theorem C6_stream_redirect_restore (s : Stream) (t : FdTable) (target_fd : Nat) :
    (s.is_redirected = false →
      s.redirect t target_fd =
        .ok ({ s with is_redirected := true }, t.dup2 target_fd s.fd) ∧
      (t.dup2 target_fd s.fd).ofd s.fd = t.ofd target_fd) ∧
    (s.is_redirected = true →
      s.redirect t target_fd = .error (.alreadyRedirected s.fd)) ∧
    (s.is_redirected = true →
      s.restore t =
        ({ s with is_redirected := false }, t.dup2 s.original_fd s.fd,
          some (s.original_fd, s.fd)) ∧
      (t.dup2 s.original_fd s.fd).ofd s.fd = t.ofd s.original_fd) ∧
    (s.is_redirected = false → s.restore t = (s, t, none)) ∧
    ((s.restore t).1.restore (s.restore t).2.1 =
      ((s.restore t).1, (s.restore t).2.1, none)) := by
  refine ⟨?_, ?_, ?_, ?_, ?_⟩
  · intro h
    exact ⟨by simp [Stream.redirect, h], FdTable.ofd_dup2_self t target_fd s.fd⟩
  · intro h
    simp [Stream.redirect, h]
  · intro h
    exact ⟨by simp [Stream.restore, h], FdTable.ofd_dup2_self t s.original_fd s.fd⟩
  · intro h
    simp [Stream.restore, h]
  · by_cases h : s.is_redirected <;> simp [Stream.restore, h]

/-- Claim C6 witness: both hypotheses discharged on concrete streams (one not
yet redirected, one already redirected). -/
theorem C6_witness :
    (Stream.mk 1 9 false).is_redirected = false ∧
    ((Stream.mk 1 9 false).redirect (FdTable.mk [] 20) 7 =
        .ok (Stream.mk 1 9 true, (FdTable.mk [] 20).dup2 7 1) ∧
      ((FdTable.mk [] 20).dup2 7 1).ofd 1 = (FdTable.mk [] 20).ofd 7) ∧
    (Stream.mk 1 9 true).is_redirected = true ∧
    ((Stream.mk 1 9 true).redirect (FdTable.mk [] 20) 7 =
      .error (.alreadyRedirected 1)) ∧
    ((Stream.mk 1 9 true).restore (FdTable.mk [] 20) =
        (Stream.mk 1 9 false, (FdTable.mk [] 20).dup2 9 1, some (9, 1)) ∧
      ((FdTable.mk [] 20).dup2 9 1).ofd 1 = (FdTable.mk [] 20).ofd 9) ∧
    (((Stream.mk 1 9 true).restore (FdTable.mk [] 20)).1.restore
        ((Stream.mk 1 9 true).restore (FdTable.mk [] 20)).2.1 =
      (((Stream.mk 1 9 true).restore (FdTable.mk [] 20)).1,
        ((Stream.mk 1 9 true).restore (FdTable.mk [] 20)).2.1, none)) :=
  ⟨rfl,
    (C6_stream_redirect_restore (Stream.mk 1 9 false) (FdTable.mk [] 20) 7).1 rfl,
    rfl,
    (C6_stream_redirect_restore (Stream.mk 1 9 true) (FdTable.mk [] 20) 7).2.1 rfl,
    (C6_stream_redirect_restore (Stream.mk 1 9 true) (FdTable.mk [] 20) 7).2.2.1 rfl,
    (C6_stream_redirect_restore (Stream.mk 1 9 true) (FdTable.mk [] 20) 7).2.2.2.2⟩

/-- Claim C4: `get_handle(partial=false)` first performs `finish_capture`
(its result state has the drain children stopped, the pty descriptors closed
and every attached stream restored, while the backing store is untouched)
before returning the backing-store read handle, whereas
`get_handle(partial=true)` returns the handle without modifying any capture
state; in both cases the handle is repositioned to offset zero, and partial
reads never raise an error. -/
theorem C4_get_handle (p : PseudoTerminal) (t : FdTable) :
    (p.get_handle t false =
      .ok ({ (p.finish_capture t).1 with handle_pos := 0 },
        (p.finish_capture t).2.1, (p.finish_capture t).2.2)) ∧
    ((p.finish_capture t).1.processes = [] ∧
      (p.finish_capture t).1.master_fd = none ∧
      (p.finish_capture t).1.slave_fd = none ∧
      (∀ st ∈ (p.finish_capture t).1.streams, st.is_redirected = false) ∧
      (p.finish_capture t).1.output_store = p.output_store) ∧
    (p.get_handle t true = .ok ({ p with handle_pos := 0 }, t, [])) ∧
    ((p.get_bytes t true).isOk = true) := by
  refine ⟨rfl, ⟨rfl, rfl, rfl, ?_, rfl⟩, rfl, rfl⟩
  rw [finish_capture_fst]
  exact restore_streams_aux_unredirected p.streams t

/-- Claim C4 witness: evaluated on a concrete pseudo terminal with one
redirected stream and one tracked child. -/
theorem C4_witness :
    ((PseudoTerminal.mk (some 2) false 0 (some 30) (some 31) [65, 10] 0
        [Stream.mk 1 9 true] [7]).get_handle (FdTable.mk [] 40) true =
      .ok (PseudoTerminal.mk (some 2) false 0 (some 30) (some 31) [65, 10] 0
        [Stream.mk 1 9 true] [7], FdTable.mk [] 40, [])) ∧
    (∀ st ∈ (((PseudoTerminal.mk (some 2) false 0 (some 30) (some 31) [65, 10] 0
        [Stream.mk 1 9 true] [7]).finish_capture (FdTable.mk [] 40)).1.streams),
      st.is_redirected = false) :=
  ⟨(C4_get_handle (PseudoTerminal.mk (some 2) false 0 (some 30) (some 31)
      [65, 10] 0 [Stream.mk 1 9 true] [7]) (FdTable.mk [] 40)).2.2.1,
    (C4_get_handle (PseudoTerminal.mk (some 2) false 0 (some 30) (some 31)
      [65, 10] 0 [Stream.mk 1 9 true] [7]) (FdTable.mk [] 40)).2.1.2.2.2.1⟩

/-- Claim C8: partial reads are idempotent and prefix-stable — a partial read
returns the whole current backing store regardless of the handle's current
position (each read seeks to offset zero first, there is no moving cursor), a
second partial read with no intervening store growth returns the same bytes,
and when the store has grown by `extra` the final full read returns the
earlier partial result extended by a suffix (so every partial result is a
prefix of the final result). -/
theorem C8_partial_reads (p : PseudoTerminal) (t : FdTable) (extra : List Nat) :
    (p.get_bytes t true =
      .ok ({ p with handle_pos := p.output_store.length }, t, [], p.output_store)) ∧
    (({ p with handle_pos := p.output_store.length } : PseudoTerminal).get_bytes t true =
      .ok ({ p with handle_pos := p.output_store.length }, t, [], p.output_store)) ∧
    (∃ q u effs rest,
      ({ p with output_store := p.output_store ++ extra } : PseudoTerminal).get_bytes t false =
        .ok (q, u, effs, p.output_store ++ rest)) :=
  ⟨rfl, rfl, ⟨_, _, _, extra, rfl⟩⟩

/-- Claim C10: a second `finish_capture` on an already-finished pseudo
terminal is a no-op (beyond the termination-delay sleep): the child list is
already empty so no signal is sent, the already-`None` descriptors are not
closed again, the streams stay restored, and the state is returned unchanged;
consequently repeated `get_bytes(partial=false)` calls keep succeeding and
keep returning the same bytes. -/
theorem C10_finish_idempotent (p : PseudoTerminal) (t : FdTable) :
    ((p.finish_capture t).1.finish_capture (p.finish_capture t).2.1 =
      ((p.finish_capture t).1, (p.finish_capture t).2.1, [PtyEffect.sleep])) ∧
    (∀ st ∈ (p.finish_capture t).1.streams, st.is_redirected = false) ∧
    ((p.finish_capture t).1.get_bytes (p.finish_capture t).2.1 false =
      .ok ({ (p.finish_capture t).1 with handle_pos := p.output_store.length },
        (p.finish_capture t).2.1, [PtyEffect.sleep], p.output_store)) ∧
    (({ (p.finish_capture t).1 with handle_pos := p.output_store.length }
        : PseudoTerminal).get_bytes (p.finish_capture t).2.1 false =
      .ok ({ (p.finish_capture t).1 with handle_pos := p.output_store.length },
        (p.finish_capture t).2.1, [PtyEffect.sleep], p.output_store)) := by
  have hstreams : ∀ st ∈ (p.finish_capture t).1.streams, st.is_redirected = false := by
    rw [finish_capture_fst]
    exact restore_streams_aux_unredirected p.streams t
  have hno : (p.finish_capture t).1.finish_capture (p.finish_capture t).2.1 =
      ((p.finish_capture t).1, (p.finish_capture t).2.1, [PtyEffect.sleep]) :=
    finish_capture_noop rfl rfl rfl hstreams
  have hno2 : ({ (p.finish_capture t).1 with handle_pos := p.output_store.length }
        : PseudoTerminal).finish_capture (p.finish_capture t).2.1 =
      ({ (p.finish_capture t).1 with handle_pos := p.output_store.length },
        (p.finish_capture t).2.1, [PtyEffect.sleep]) :=
    finish_capture_noop rfl rfl rfl hstreams
  refine ⟨hno, hstreams, ?_, ?_⟩
  · simp [PseudoTerminal.get_bytes, PseudoTerminal.get_handle, hno]
    exact ⟨rfl, rfl⟩
  · simp [PseudoTerminal.get_bytes, PseudoTerminal.get_handle, hno2]
    exact ⟨rfl, rfl⟩

theorem merge_loop_terminated_iff (msgs : List (Nat × List Nat))
    (buffers : List (Nat × OutputBuffer)) :
    (merge_loop msgs buffers).outcome = .terminated ↔
      (merge_loop msgs buffers).buffers = [] := by
  induction msgs generalizing buffers with
  | nil =>
    cases buffers with
    | nil => simp [merge_loop]
    | cons b bs => simp [merge_loop]
  | cons m rest ih =>
    obtain ⟨tok, output⟩ := m
    cases buffers with
    | nil => simp [merge_loop]
    | cons b bs =>
      simp only [merge_loop]
      cases h : lookupAssoc (b :: bs) tok with
      | none => simp [h]
      | some buf =>
        by_cases ho : output = []
        · simp [h, ho, ih]
        · simp [h, ho, ih]

/-- Claim C3: in the merge loop, a `(token, bytes)` message with non-empty
payload is added to that token's buffer — whose `add` writes every complete
line (ending in the terminator, on that role's real-output descriptor) and
retains only the trailing partial line; a `(token, empty)` message flushes
that token's remaining buffered content unconditionally and drops the token
from the active set; and the loop terminates exactly when the active set
becomes empty. -/
theorem C3_merge_loop (rest : List (Nat × List Nat))
    (buffers : List (Nat × OutputBuffer)) (tok : Nat) (out : List Nat)
    (b : OutputBuffer) :
    (buffers ≠ [] → lookupAssoc buffers tok = some b → out ≠ [] →
      merge_loop ((tok, out) :: rest) buffers =
        { writes := (b.add out).2 ++
            (merge_loop rest (setAssoc buffers tok (b.add out).1)).writes,
          buffers := (merge_loop rest (setAssoc buffers tok (b.add out).1)).buffers,
          outcome := (merge_loop rest (setAssoc buffers tok (b.add out).1)).outcome } ∧
      NL ∉ (b.add out).1.buffer ∧
      joinWrites (b.add out).2 ++ (b.add out).1.buffer = b.buffer ++ out ∧
      (∀ w ∈ (b.add out).2, w.1 = b.fd)) ∧
    (buffers ≠ [] → lookupAssoc buffers tok = some b →
      merge_loop ((tok, []) :: rest) buffers =
        { writes := (b.fd, b.buffer) ::
            (merge_loop rest (removeAssoc buffers tok)).writes,
          buffers := (merge_loop rest (removeAssoc buffers tok)).buffers,
          outcome := (merge_loop rest (removeAssoc buffers tok)).outcome }) ∧
    ((merge_loop rest buffers).outcome = .terminated ↔
      (merge_loop rest buffers).buffers = []) := by
  refine ⟨?_, ?_, merge_loop_terminated_iff rest buffers⟩
  · intro hne hlook hout
    cases buffers with
    | nil => exact absurd rfl hne
    | cons hd tl =>
      refine ⟨?_, (OutputBuffer.add_spec b out).1,
        (OutputBuffer.add_spec b out).2.1,
        fun w hw => ((OutputBuffer.add_spec b out).2.2.1 w hw).1⟩
      simp [merge_loop, hlook, hout]
  · intro hne hlook
    cases buffers with
    | nil => exact absurd rfl hne
    | cons hd tl =>
      simp [merge_loop, hlook, OutputBuffer.flush]

/-- Claim C3 witness: both message shapes evaluated against a concrete
two-token buffer set. -/
theorem C3_witness :
    ([(1, OutputBuffer.mk 5 [65]), (2, OutputBuffer.mk 7 [66])] ≠
      ([] : List (Nat × OutputBuffer))) ∧
    (lookupAssoc [(1, OutputBuffer.mk 5 [65]), (2, OutputBuffer.mk 7 [66])] 1 =
      some (OutputBuffer.mk 5 [65])) ∧
    (([67, 10] : List Nat) ≠ []) ∧
    (merge_loop [(1, [67, 10])] [(1, OutputBuffer.mk 5 [65]), (2, OutputBuffer.mk 7 [66])] =
      { writes := ((OutputBuffer.mk 5 [65]).add [67, 10]).2 ++
          (merge_loop [] (setAssoc [(1, OutputBuffer.mk 5 [65]), (2, OutputBuffer.mk 7 [66])]
            1 ((OutputBuffer.mk 5 [65]).add [67, 10]).1)).writes,
        buffers := (merge_loop [] (setAssoc [(1, OutputBuffer.mk 5 [65]), (2, OutputBuffer.mk 7 [66])]
            1 ((OutputBuffer.mk 5 [65]).add [67, 10]).1)).buffers,
        outcome := (merge_loop [] (setAssoc [(1, OutputBuffer.mk 5 [65]), (2, OutputBuffer.mk 7 [66])]
            1 ((OutputBuffer.mk 5 [65]).add [67, 10]).1)).outcome }) ∧
    (merge_loop [(1, [])] [(1, OutputBuffer.mk 5 [65]), (2, OutputBuffer.mk 7 [66])] =
      { writes := (5, [65]) ::
          (merge_loop [] (removeAssoc [(1, OutputBuffer.mk 5 [65]), (2, OutputBuffer.mk 7 [66])] 1)).writes,
        buffers := (merge_loop [] (removeAssoc [(1, OutputBuffer.mk 5 [65]), (2, OutputBuffer.mk 7 [66])] 1)).buffers,
        outcome := (merge_loop [] (removeAssoc [(1, OutputBuffer.mk 5 [65]), (2, OutputBuffer.mk 7 [66])] 1)).outcome }) :=
  ⟨by decide, by decide, by decide,
    ((C3_merge_loop [] [(1, OutputBuffer.mk 5 [65]), (2, OutputBuffer.mk 7 [66])]
        1 [67, 10] (OutputBuffer.mk 5 [65])).1 (by decide) (by decide) (by decide)).1,
    (C3_merge_loop [] [(1, OutputBuffer.mk 5 [65]), (2, OutputBuffer.mk 7 [66])]
        1 [67, 10] (OutputBuffer.mk 5 [65])).2.1 (by decide) (by decide)⟩

theorem attachAll_ok (slave : Nat) (l : List (Nat × Stream)) :
    ∀ (t : FdTable), (∀ q ∈ l, q.2.is_redirected = false) →
    ∃ t2, attachAll l slave t =
      .ok (l.map (fun q => (q.1, { q.2 with is_redirected := true })),
           l.map (fun q => { q.2 with is_redirected := true }),
           t2,
           l.map (fun q => StartEv.redirectFd q.2.fd)) := by
  induction l with
  | nil => exact fun t _ => ⟨t, rfl⟩
  | cons hd tl ih =>
    intro t h
    obtain ⟨k, st⟩ := hd
    have hst : st.is_redirected = false := h (k, st) (by simp)
    have htl : ∀ q ∈ tl, q.2.is_redirected = false := fun q hq => h q (by simp [hq])
    obtain ⟨t2, htl_eq⟩ := ih (t.dup2 slave st.fd) htl
    refine ⟨t2, ?_⟩
    simp [attachAll, Stream.redirect, hst, htl_eq]

theorem attachSplit_ok (so se : Nat) (l : List (Nat × Stream)) :
    ∀ (t : FdTable),
    (∀ q ∈ l, (q.1 = STDOUT_FD ∨ q.1 = STDERR_FD) ∧ q.2.is_redirected = false) →
    ∃ t2 aout aerr, attachSplit l so se t =
      .ok (l.map (fun q => (q.1, { q.2 with is_redirected := true })),
           aout, aerr, t2, l.map (fun q => StartEv.redirectFd q.2.fd)) := by
  induction l with
  | nil => exact fun t _ => ⟨t, [], [], rfl⟩
  | cons hd tl ih =>
    intro t h
    obtain ⟨k, st⟩ := hd
    obtain ⟨hk, hst⟩ := h (k, st) (by simp)
    have hst2 : st.is_redirected = false := hst
    have htl : ∀ q ∈ tl, (q.1 = STDOUT_FD ∨ q.1 = STDERR_FD) ∧ q.2.is_redirected = false :=
      fun q hq => h q (by simp [hq])
    rcases hk with hk | hk
    · have hk2 : k = STDOUT_FD := hk
      obtain ⟨t2, aout, aerr, htl_eq⟩ := ih (t.dup2 so st.fd) htl
      refine ⟨t2, { st with is_redirected := true } :: aout, aerr, ?_⟩
      simp [attachSplit, hk2, Stream.redirect, hst2, htl_eq]
    · have hk2 : k = STDERR_FD := hk
      obtain ⟨t2, aout, aerr, htl_eq⟩ := ih (t.dup2 se st.fd) htl
      refine ⟨t2, aout, { st with is_redirected := true } :: aerr, ?_⟩
      simp [attachSplit, hk2, STDOUT_FD, STDERR_FD, Stream.redirect, hst2, htl_eq]

theorem init_facts (merged : Bool) (f1 f2 : Nat) (t : FdTable) :
    (∀ q ∈ (CaptureOutput.init merged f1 f2 t).1.streams,
      (q.1 = STDOUT_FD ∨ q.1 = STDERR_FD) ∧ q.2.is_redirected = false) ∧
    (CaptureOutput.init merged f1 f2 t).1.streams ≠ [] ∧
    (CaptureOutput.init merged f1 f2 t).1.is_capturing = false ∧
    (CaptureOutput.init merged f1 f2 t).1.merged = merged ∧
    (CaptureOutput.init merged f1 f2 t).1.has_output_attr = false := by
  unfold CaptureOutput.init CaptureOutput.initialize_stream Stream.init
  by_cases h1 : f1 = STDOUT_FD <;> by_cases h2 : f2 = STDERR_FD <;>
    simp [h1, h2, CaptureOutput.is_capturing]

theorem any_redirected_map (l : List (Nat × Stream)) (h : l ≠ []) :
    (l.map (fun q => (q.1, { q.2 with is_redirected := true }))).any
      (fun p => p.2.is_redirected) = true := by
  cases l with
  | nil => exact absurd rfl h
  | cons hd tl => simp

theorem start_capture_merged (s : CaptureOutput) (t : FdTable)
    (hcap : s.is_capturing = false) (hm : s.merged = true)
    (hstreams : ∀ q ∈ s.streams, q.2.is_redirected = false) :
    ∃ t2, s.start_capture t =
      .ok ({ s with
              streams := s.streams.map (fun q => (q.1, { q.2 with is_redirected := true }))
              pseudo_terminals :=
                [{ (PseudoTerminal.init (some s.stderr_original_fd) false 0 t).1 with
                    streams := s.streams.map (fun q => { q.2 with is_redirected := true })
                    processes := [0] }]
              has_output_attr := true }, t2,
        [StartEv.allocPty 0] ++ s.streams.map (fun q => StartEv.redirectFd q.2.fd)
          ++ [StartEv.startDrain 0]) := by
  obtain ⟨t2, hA⟩ := attachAll_ok
    ((PseudoTerminal.init (some s.stderr_original_fd) false 0 t).1.slave_fd.getD 0)
    s.streams (PseudoTerminal.init (some s.stderr_original_fd) false 0 t).2 hstreams
  refine ⟨t2, ?_⟩
  simp [CaptureOutput.start_capture, hcap, hm, hA]

theorem start_capture_split (s : CaptureOutput) (t : FdTable)
    (hcap : s.is_capturing = false) (hm : s.merged = false)
    (hstreams : ∀ q ∈ s.streams,
      (q.1 = STDOUT_FD ∨ q.1 = STDERR_FD) ∧ q.2.is_redirected = false) :
    ∃ t2 aout aerr, s.start_capture t =
      .ok ({ s with
              streams := s.streams.map (fun q => (q.1, { q.2 with is_redirected := true }))
              pseudo_terminals :=
                [{ (PseudoTerminal.init none true STDOUT_FD t).1 with
                    streams := aout, processes := [1] },
                 { (PseudoTerminal.init none true STDERR_FD
                      (PseudoTerminal.init none true STDOUT_FD t).2).1 with
                    streams := aerr, processes := [2] }]
              processes := [0] }, t2,
        [StartEv.startMerge, StartEv.allocPty 0, StartEv.allocPty 1]
          ++ s.streams.map (fun q => StartEv.redirectFd q.2.fd)
          ++ [StartEv.startDrain 0, StartEv.startDrain 1]) := by
  obtain ⟨t2, aout, aerr, hA⟩ := attachSplit_ok
    ((PseudoTerminal.init none true STDOUT_FD t).1.slave_fd.getD 0)
    ((PseudoTerminal.init none true STDERR_FD
        (PseudoTerminal.init none true STDOUT_FD t).2).1.slave_fd.getD 0)
    s.streams
    (PseudoTerminal.init none true STDERR_FD
      (PseudoTerminal.init none true STDOUT_FD t).2).2 hstreams
  refine ⟨t2, aout, aerr, ?_⟩
  simp [CaptureOutput.start_capture, hcap, hm, hA]

/-- Claim C1: `start_capture` on a session where any attached stream is
already redirected (exactly the `is_capturing` predicate) fails with the
already-capturing error, performing no pty allocation and no redirection
(the error is returned before any state change or event); and a freshly
constructed session starts successfully, after which the session is in
exactly the `is_capturing` state — so an immediate second `start_capture`
fails with the already-capturing error. -/
theorem C1_already_capturing (s : CaptureOutput) (t : FdTable)
    (merged : Bool) (f1 f2 : Nat) (t0 : FdTable) :
    (s.is_capturing = true → s.start_capture t = .error .alreadyCapturing) ∧
    (∃ s2 t2 evs,
      (CaptureOutput.init merged f1 f2 t0).1.start_capture
        (CaptureOutput.init merged f1 f2 t0).2 = .ok (s2, t2, evs) ∧
      s2.is_capturing = true ∧
      s2.start_capture t2 = .error .alreadyCapturing) := by
  constructor
  · intro h
    simp [CaptureOutput.start_capture, h]
  · obtain ⟨hq, hne, hcap, hm, _⟩ := init_facts merged f1 f2 t0
    cases merged with
    | true =>
      obtain ⟨t2, heq⟩ :=
        start_capture_merged _ _ hcap hm (fun q hq2 => (hq q hq2).2)
      have hc2 : ({ (CaptureOutput.init true f1 f2 t0).1 with
          streams := (CaptureOutput.init true f1 f2 t0).1.streams.map
            (fun q => (q.1, { q.2 with is_redirected := true }))
          pseudo_terminals :=
            [{ (PseudoTerminal.init
                  (some (CaptureOutput.init true f1 f2 t0).1.stderr_original_fd)
                  false 0 (CaptureOutput.init true f1 f2 t0).2).1 with
                streams := (CaptureOutput.init true f1 f2 t0).1.streams.map
                  (fun q => { q.2 with is_redirected := true })
                processes := [0] }]
          has_output_attr := true } : CaptureOutput).is_capturing = true := by
        simp only [CaptureOutput.is_capturing]
        exact any_redirected_map _ hne
      exact ⟨_, t2, _, heq, hc2, by simp [CaptureOutput.start_capture, hc2]⟩
    | false =>
      obtain ⟨t2, aout, aerr, heq⟩ := start_capture_split _ _ hcap hm hq
      have hc2 : ({ (CaptureOutput.init false f1 f2 t0).1 with
          streams := (CaptureOutput.init false f1 f2 t0).1.streams.map
            (fun q => (q.1, { q.2 with is_redirected := true }))
          pseudo_terminals :=
            [{ (PseudoTerminal.init none true STDOUT_FD
                  (CaptureOutput.init false f1 f2 t0).2).1 with
                streams := aout, processes := [1] },
             { (PseudoTerminal.init none true STDERR_FD
                  (PseudoTerminal.init none true STDOUT_FD
                    (CaptureOutput.init false f1 f2 t0).2).2).1 with
                streams := aerr, processes := [2] }]
          processes := [0] } : CaptureOutput).is_capturing = true := by
        simp only [CaptureOutput.is_capturing]
        exact any_redirected_map _ hne
      exact ⟨_, t2, _, heq, hc2, by simp [CaptureOutput.start_capture, hc2]⟩

/-- Claim C1 witness: the already-capturing hypothesis discharged on a
concrete session with one redirected stream. -/
theorem C1_witness :
    ((CaptureOutput.mk true [(1, Stream.mk 1 11 true)] [] 12 false []).is_capturing
      = true) ∧
    ((CaptureOutput.mk true [(1, Stream.mk 1 11 true)] [] 12 false []).start_capture
      (FdTable.mk [] 20) = .error .alreadyCapturing) ∧
    (∃ s2 t2 evs,
      (CaptureOutput.init true 1 2 (FdTable.mk [] 20)).1.start_capture
        (CaptureOutput.init true 1 2 (FdTable.mk [] 20)).2 = .ok (s2, t2, evs) ∧
      s2.is_capturing = true ∧
      s2.start_capture t2 = .error .alreadyCapturing) :=
  ⟨by decide,
    (C1_already_capturing (CaptureOutput.mk true [(1, Stream.mk 1 11 true)] [] 12 false [])
      (FdTable.mk [] 20) true 1 2 (FdTable.mk [] 20)).1 (by decide),
    (C1_already_capturing (CaptureOutput.mk true [(1, Stream.mk 1 11 true)] [] 12 false [])
      (FdTable.mk [] 20) true 1 2 (FdTable.mk [] 20)).2⟩

/-- Claim C7 counterexample: on a concrete split-mode session, the merge
child process is started as the very first action of `start_capture` —
before the ptys are allocated and before any stream is redirected — so it is
false that no drain or merge process is started before every stream has been
redirected. -/
theorem C7_counterexample_merge_first :
    (((CaptureOutput.init false 1 2 (FdTable.mk [] 50)).1.start_capture
        (CaptureOutput.init false 1 2 (FdTable.mk [] 50)).2).map
      (fun r => r.2.2)) =
      .ok [StartEv.startMerge, StartEv.allocPty 0, StartEv.allocPty 1,
           StartEv.redirectFd 1, StartEv.redirectFd 2,
           StartEv.startDrain 0, StartEv.startDrain 1] ∧
    ([StartEv.startMerge, StartEv.allocPty 0, StartEv.allocPty 1,
      StartEv.redirectFd 1, StartEv.redirectFd 2,
      StartEv.startDrain 0, StartEv.startDrain 1].head? = some StartEv.startMerge) ∧
    (([StartEv.startMerge, StartEv.allocPty 0, StartEv.allocPty 1,
       StartEv.redirectFd 1, StartEv.redirectFd 2,
       StartEv.startDrain 0, StartEv.startDrain 1].drop 1).any StartEv.isRedirect
      = true) := by
  exact ⟨rfl, rfl, rfl⟩

/-- Claim C7 (amended): in `start_capture` the drain processes are started
only after the pty allocations and after every stream has been redirected,
in both modes; the merge process, however, is started first in split mode —
before pty allocation and before any stream is redirected. (The original
claim that no drain *or merge* process starts before the redirections is
refuted by the counterexample.) -/
theorem C7_start_order (f1 f2 : Nat) (t : FdTable) :
    (∃ s2 t2 revs,
      (CaptureOutput.init true f1 f2 t).1.start_capture
          (CaptureOutput.init true f1 f2 t).2 =
        .ok (s2, t2, [StartEv.allocPty 0] ++ revs ++ [StartEv.startDrain 0]) ∧
      (∀ e ∈ revs, e.isRedirect = true)) ∧
    (∃ s2 t2 revs,
      (CaptureOutput.init false f1 f2 t).1.start_capture
          (CaptureOutput.init false f1 f2 t).2 =
        .ok (s2, t2,
          [StartEv.startMerge, StartEv.allocPty 0, StartEv.allocPty 1] ++ revs
            ++ [StartEv.startDrain 0, StartEv.startDrain 1]) ∧
      (∀ e ∈ revs, e.isRedirect = true)) := by
  constructor
  · obtain ⟨hq, hne, hcap, hm, _⟩ := init_facts true f1 f2 t
    obtain ⟨t2, heq⟩ :=
      start_capture_merged _ _ hcap hm (fun q hq2 => (hq q hq2).2)
    refine ⟨_, t2, _, heq, ?_⟩
    intro e he
    simp only [List.mem_map] at he
    obtain ⟨q, _, rfl⟩ := he
    rfl
  · obtain ⟨hq, hne, hcap, hm, _⟩ := init_facts false f1 f2 t
    obtain ⟨t2, aout, aerr, heq⟩ := start_capture_split _ _ hcap hm hq
    refine ⟨_, t2, _, heq, ?_⟩
    intro e he
    simp only [List.mem_map] at he
    obtain ⟨q, _, rfl⟩ := he
    rfl

/-- Claim C9: every old-API read accessor called on a session before any
capture has begun fails synchronously with the old-API error (the spec's
"CaptureNotStarted" condition), and called on a split-mode session — even
after a successful `start_capture` — fails with the same error (the spec's
"UnsupportedMode" condition); the guard reads the session state without
modifying it, and on a merged session after `start_capture` the accessor
dispatch succeeds, so the failure occurs in exactly those two conditions. -/
theorem C9_old_api_guard (name : OldApiName) (merged : Bool) (f1 f2 : Nat)
    (t : FdTable) :
    ((CaptureOutput.init merged f1 f2 t).1.method_proxy name =
      .error .oldApiUnavailable) ∧
    (∃ s2 t2 evs,
      (CaptureOutput.init false f1 f2 t).1.start_capture
          (CaptureOutput.init false f1 f2 t).2 = .ok (s2, t2, evs) ∧
      s2.method_proxy name = .error .oldApiUnavailable) ∧
    (∃ s2 t2 evs,
      (CaptureOutput.init true f1 f2 t).1.start_capture
          (CaptureOutput.init true f1 f2 t).2 = .ok (s2, t2, evs) ∧
      s2.method_proxy name = .ok ()) := by
  refine ⟨?_, ?_, ?_⟩
  · have h := (init_facts merged f1 f2 t).2.2.2.2
    simp [CaptureOutput.method_proxy, h]
  · obtain ⟨hq, hne, hcap, hm, hattr⟩ := init_facts false f1 f2 t
    obtain ⟨t2, aout, aerr, heq⟩ := start_capture_split _ _ hcap hm hq
    refine ⟨_, t2, _, heq, ?_⟩
    simp [CaptureOutput.method_proxy, hattr]
  · obtain ⟨hq, hne, hcap, hm, hattr⟩ := init_facts true f1 f2 t
    obtain ⟨t2, heq⟩ :=
      start_capture_merged _ _ hcap hm (fun q hq2 => (hq q hq2).2)
    refine ⟨_, t2, _, heq, ?_⟩
    simp [CaptureOutput.method_proxy]

end Capturer
